import Mathlib

/-!
Verification of the transcript chunking, ingestion and retrieval pipeline of the
chat-with-transcripts repository, shallowly embedded in Lean.

The embedding models:
* the per-chunk metadata enrichment performed (verbatim, twice) inside
  `chunkTranscriptStep` and `processMultipleTranscriptsStep` of
  `src/mastra/workflows/transcripts-workflow.ts`;
* the `chunkSingleTranscript` helper variant that filters empty speakers and
  substitutes empty strings in `chunk_id`;
* the per-URL loop of `processMultipleTranscriptsStep` and the two embed/upsert
  steps, with external I/O (fetch+parse, the third-party sentence splitter, the
  embedding model and the vector store) represented as oracle parameters and
  the vector-store calls recorded as an explicit effect trace;
* the retrieval tools `transcriptSearchTool` and `episodeInfoTool`
  (`src/mastra/tools/transcript-search-tool.ts`) and the relational tools
  `searchEpisodesByTitle` / `getEpisodeStats` (episode-info tool file).

JavaScript semantics relevant here: out-of-range array access yields
`undefined` (modelled as `Option`), reading a property of `undefined` throws a
`TypeError` (modelled as `Except.error`), `x ?? d` and `x || d` defaulting, and
template-literal coercion of `undefined` to the string "undefined".
-/

/-- JavaScript `Set` insertion: append `x` unless it is already present
(insertion order is preserved, first occurrence wins). -/
def jsSetAdd {α : Type} [DecidableEq α] (acc : List α) (x : α) : List α :=
  if x ∈ acc then acc else acc ++ [x]

/-- First-occurrence deduplication, the order-preserving semantics of
`Array.from(new Set(xs))` / `[...new Set(xs)]` in JavaScript. -/
def firstDedup {α : Type} [DecidableEq α] (l : List α) : List α :=
  l.foldl jsSetAdd []

theorem foldl_jsSetAdd_mem {α : Type} [DecidableEq α] (l : List α) (acc : List α) (x : α) :
    x ∈ l.foldl jsSetAdd acc ↔ x ∈ acc ∨ x ∈ l := by
  induction l generalizing acc with
  | nil => simp
  | cons a l ih =>
    rw [List.foldl_cons, ih]
    unfold jsSetAdd
    by_cases h : a ∈ acc
    · simp only [if_pos h, List.mem_cons]
      constructor
      · rintro (hx | hx)
        · exact Or.inl hx
        · exact Or.inr (Or.inr hx)
      · rintro (hx | hx | hx)
        · exact Or.inl hx
        · exact Or.inl (hx ▸ h)
        · exact Or.inr hx
    · simp only [if_neg h, List.mem_append, List.mem_singleton, List.mem_cons]
      tauto

theorem foldl_jsSetAdd_nodup {α : Type} [DecidableEq α] (l : List α) (acc : List α)
    (h : acc.Nodup) : (l.foldl jsSetAdd acc).Nodup := by
  induction l generalizing acc with
  | nil => simpa using h
  | cons a l ih =>
    rw [List.foldl_cons]
    apply ih
    unfold jsSetAdd
    by_cases hmem : a ∈ acc
    · simpa [hmem] using h
    · simp only [if_neg hmem]
      simp [List.nodup_append, h, List.disjoint_singleton, hmem]

theorem mem_firstDedup {α : Type} [DecidableEq α] (l : List α) (x : α) :
    x ∈ firstDedup l ↔ x ∈ l := by
  unfold firstDedup
  rw [foldl_jsSetAdd_mem]
  simp

theorem nodup_firstDedup {α : Type} [DecidableEq α] (l : List α) :
    (firstDedup l).Nodup :=
  foldl_jsSetAdd_nodup l [] (by simp)

theorem firstDedup_concat {α : Type} [DecidableEq α] (l : List α) (x : α) :
    firstDedup (l ++ [x]) = if x ∈ l then firstDedup l else firstDedup l ++ [x] := by
  have h1 : firstDedup (l ++ [x]) = jsSetAdd (firstDedup l) x := by
    unfold firstDedup
    rw [List.foldl_append, List.foldl_cons, List.foldl_nil]
  rw [h1]
  unfold jsSetAdd
  simp only [mem_firstDedup]

/-- Numeric value of the digit string captured by the marker regex, as computed
by `parseInt(match[1], 10)`. -/
def digitsToNat (ds : List Char) : Nat :=
  ds.foldl (fun n c => n * 10 + (c.toNat - '0'.toNat)) 0

/-- Try to match the regular expression `\[\[(\d+)\]\]` at the head of the
character list, returning the captured number and the remainder after the
match.  Digits are matched greedily, exactly as the regex engine does (no
backtracking can change the outcome because a digit is never `]`). -/
def matchMarker : List Char → Option (Nat × List Char)
  | '[' :: '[' :: rest =>
    let ds := rest.takeWhile Char.isDigit
    if ds.isEmpty then none
    else
      match rest.dropWhile Char.isDigit with
      | ']' :: ']' :: rest₂ => some (digitsToNat ds, rest₂)
      | _ => none
  | _ => none

/-- Fuel-indexed scanner for all non-overlapping matches of `\[\[(\d+)\]\]`,
left to right, the semantics of `text.matchAll(/\[\[(\d+)\]\]/g)`.  A fuel of
`length` suffices because every step consumes at least one character. -/
def extractMarkersAux : Nat → List Char → List Nat
  | 0, _ => []
  | _, [] => []
  | fuel + 1, c :: cs =>
    match matchMarker (c :: cs) with
    | some (n, rest) => n :: extractMarkersAux fuel rest
    | none => extractMarkersAux fuel cs

/-- All marker indices appearing in a chunk text, in scan order:
`Array.from(chunk.text.matchAll(/\[\[(\d+)\]\]/g)).map(m => parseInt(m[1], 10))`. -/
def extractMarkers (s : List Char) : List Nat :=
  extractMarkersAux s.length s

/-- `chunk.text.replace(/\[\[\d+\]\]/g, '')`: delete every marker match, using
the same left-to-right scan as `matchAll`. -/
def stripMarkersAux : Nat → List Char → List Char
  | 0, l => l
  | _, [] => []
  | fuel + 1, c :: cs =>
    match matchMarker (c :: cs) with
    | some (_, rest) => stripMarkersAux fuel rest
    | none => c :: stripMarkersAux fuel cs

def stripMarkers (s : List Char) : List Char :=
  stripMarkersAux s.length s

/-- `String.prototype.trim()`: drop whitespace from both ends. -/
def trimChars (l : List Char) : List Char :=
  ((l.dropWhile Char.isWhitespace).reverse.dropWhile Char.isWhitespace).reverse

/-- One transcript entry as validated by the workflow input schema
(`timestamp`, `speaker`, `text`, all strings). -/
structure TranscriptEntry where
  timestamp : String
  speaker : String
  text : String
deriving DecidableEq

/-- The `metadata` object of a workflow transcript document. -/
structure TranscriptMetadataW where
  episode_title : String
  total_speakers : List String
  source : String
deriving DecidableEq

/-- Per-chunk metadata emitted by the workflow chunking steps. -/
structure ChunkMetadata where
  episode_title : String
  total_speakers : List String
  source : String
  source_type : String
  timestamp_start : String
  timestamp_end : String
  speakers_in_chunk : List String
  entries_count : Nat
  chunk_id : String
deriving DecidableEq

structure ChunkWithMetadata where
  text : String
  metadata : ChunkMetadata
deriving DecidableEq

/-- `uniqueIndices`: `Array.from(new Set(entryIndices)).sort((a, b) => a - b)` —
first-occurrence deduplication followed by an ascending numeric sort. -/
def spannedIndices (s : List Char) : List Nat :=
  List.insertionSort (· ≤ ·) (firstDedup (extractMarkers s))

/-- `matchedEntries = uniqueIndices.map(i => transcript[i])`, with the JS
out-of-range access (`undefined`) modelled as `Option`. -/
def matchedEntries {α : Type} (transcript : List α) (s : List Char) : List (Option α) :=
  (spannedIndices s).map (fun k => transcript.get? k)

/-- `firstEntry = matchedEntries[0]` — `undefined` both when the list is empty
and when the minimum index was out of range. -/
def chunkFirstEntry {α : Type} (transcript : List α) (s : List Char) : Option α :=
  ((matchedEntries transcript s).head?).bind id

/-- `lastEntry = matchedEntries[matchedEntries.length - 1]`. -/
def chunkLastEntry {α : Type} (transcript : List α) (s : List Char) : Option α :=
  ((matchedEntries transcript s).getLast?).bind id

/-- `firstEntry?.timestamp ?? ''`. -/
def tsOrEmpty : Option TranscriptEntry → String
  | some e => e.timestamp
  | none => ""

/-- Template-literal interpolation of `firstEntry?.timestamp` inside
`chunk_id`: `undefined` is coerced to the string "undefined". -/
def tsOrUndefined : Option TranscriptEntry → String
  | some e => e.timestamp
  | none => "undefined"

/-- The TypeError thrown by `matchedEntries.map((e) => e.speaker)` when some
matched entry is `undefined` (out-of-range marker index). -/
def undefinedSpeakerError : String :=
  "TypeError: Cannot read properties of undefined (reading speaker)"

/-- The chunk record built by the enrichment map of `chunkTranscriptStep` /
`processMultipleTranscriptsStep` when no exception is thrown. -/
def mkChunkRecord (md : TranscriptMetadataW) (transcript : List TranscriptEntry)
    (index : Nat) (chunkText : String) : ChunkWithMetadata :=
  { text := String.mk (trimChars (stripMarkers chunkText.data))
    metadata :=
      { episode_title := md.episode_title
        total_speakers := md.total_speakers
        source := md.source
        source_type := "transcript"
        timestamp_start := tsOrEmpty (chunkFirstEntry transcript chunkText.data)
        timestamp_end := tsOrEmpty (chunkLastEntry transcript chunkText.data)
        speakers_in_chunk :=
          firstDedup (((matchedEntries transcript chunkText.data).filterMap id).map
            TranscriptEntry.speaker)
        entries_count := (matchedEntries transcript chunkText.data).length
        chunk_id := md.episode_title ++ "_chunk_" ++ toString index ++ "_" ++
          tsOrUndefined (chunkFirstEntry transcript chunkText.data) ++ "_" ++
          tsOrUndefined (chunkLastEntry transcript chunkText.data) } }

/-- The per-chunk enrichment mapping of `chunkTranscriptStep`, repeated
verbatim inside `processMultipleTranscriptsStep`: detect spanned entries via
the positional markers, then attach provenance metadata.  If any spanned index
is out of range, `matchedEntries` contains `undefined` and
`matchedEntries.map((e) => e.speaker)` throws a TypeError, modelled by the
error branch. -/
def enrichChunk (md : TranscriptMetadataW) (transcript : List TranscriptEntry)
    (index : Nat) (chunkText : String) : Except String ChunkWithMetadata :=
  if (matchedEntries transcript chunkText.data).all Option.isSome then
    Except.ok (mkChunkRecord md transcript index chunkText)
  else Except.error undefinedSpeakerError

/-- One entry of the single-transcript helper (`ProcessedTranscript` or
`SimpleTranscript`): timestamp and speaker fields may be absent. -/
structure SEntry where
  timestamp : Option String
  speaker : Option String
  text : String
deriving DecidableEq

/-- `TranscriptMetadata` of the helper variant (types.ts of the helper tree). -/
structure TranscriptMetadataS where
  episode_title : String
  speakers : List String
  summary : Option String
  source : String
deriving DecidableEq

structure ChunkMetadataS where
  episode_title : String
  speakers : List String
  source : String
  source_type : String
  timestamp_start : String
  timestamp_end : String
  speakers_in_chunk : List String
  entries_count : Nat
  chunk_id : String
deriving DecidableEq

structure ChunkWithMetadataS where
  text : String
  metadata : ChunkMetadataS
deriving DecidableEq

/-- Timestamp extraction in `chunkSingleTranscript`: both the
`'timestamp' in (firstEntry || {}) ? firstEntry.timestamp : ''` form and the
`(firstEntry as any)?.timestamp || ''` form used for `chunk_id` evaluate to
this (an absent timestamp and the empty string both give the empty string). -/
def tsSOrEmpty : Option SEntry → String
  | some e => e.timestamp.getD ""
  | none => ""

/-- The speaker filter of `chunkSingleTranscript`:
`typeof s === 'string' && s.trim() !== ''` keeps exactly present, non-blank
speaker values. -/
def sSpeakerKeep (e : SEntry) : Option String :=
  match e.speaker with
  | some sp => if trimChars sp.data = [] then none else some sp
  | none => none

/-- The chunk record built by `chunkSingleTranscript` when no exception is
thrown: empty speakers are filtered out and `chunk_id` substitutes empty
strings rather than "undefined" for the missing first/last timestamps. -/
def mkChunkRecordS (md : TranscriptMetadataS) (transcript : List SEntry)
    (index : Nat) (chunkText : String) : ChunkWithMetadataS :=
  { text := String.mk (trimChars (stripMarkers chunkText.data))
    metadata :=
      { episode_title := md.episode_title
        speakers := md.speakers
        source := md.source
        source_type := "transcript"
        timestamp_start := tsSOrEmpty (chunkFirstEntry transcript chunkText.data)
        timestamp_end := tsSOrEmpty (chunkLastEntry transcript chunkText.data)
        speakers_in_chunk :=
          firstDedup (((matchedEntries transcript chunkText.data).filterMap id).filterMap
            sSpeakerKeep)
        entries_count := (matchedEntries transcript chunkText.data).length
        chunk_id := md.episode_title ++ "_chunk_" ++ toString index ++ "_" ++
          tsSOrEmpty (chunkFirstEntry transcript chunkText.data) ++ "_" ++
          tsSOrEmpty (chunkLastEntry transcript chunkText.data) } }

/-- The per-chunk enrichment mapping of the `chunkSingleTranscript` helper.
It throws the same TypeError on an out-of-range index, because
`matchedEntries.map((e: any) => e.speaker)` is evaluated before its filter. -/
def chunkSingleTranscriptEnrich (md : TranscriptMetadataS) (transcript : List SEntry)
    (index : Nat) (chunkText : String) : Except String ChunkWithMetadataS :=
  if (matchedEntries transcript chunkText.data).all Option.isSome then
    Except.ok (mkChunkRecordS md transcript index chunkText)
  else Except.error undefinedSpeakerError

theorem spannedIndices_sorted (s : List Char) : (spannedIndices s).Sorted (· ≤ ·) :=
  List.sorted_insertionSort _ _

theorem spannedIndices_nodup (s : List Char) : (spannedIndices s).Nodup :=
  ((List.perm_insertionSort _ _).nodup_iff).mpr (nodup_firstDedup _)

theorem spannedIndices_sorted_lt (s : List Char) : (spannedIndices s).Sorted (· < ·) :=
  (spannedIndices_sorted s).lt_of_le (spannedIndices_nodup s)

theorem mem_spannedIndices (s : List Char) (k : Nat) :
    k ∈ spannedIndices s ↔ k ∈ extractMarkers s := by
  unfold spannedIndices
  rw [(List.perm_insertionSort _ _).mem_iff]
  exact mem_firstDedup _ _

/-- In a list sorted by `≤`, a least member is the head. -/
theorem head?_eq_of_min {l : List Nat} (hs : l.Sorted (· ≤ ·)) {k : Nat}
    (hk : k ∈ l) (hmin : ∀ x ∈ l, k ≤ x) : l.head? = some k := by
  cases l with
  | nil => cases hk
  | cons a t =>
    simp only [List.head?_cons, Option.some.injEq]
    rcases List.mem_cons.mp hk with h | h
    · exact h.symm
    · have h1 : a ≤ k := (List.sorted_cons.mp hs).1 k h
      have h2 : k ≤ a := hmin a (by simp)
      omega

/-- In a strictly sorted list, a greatest member is the last element. -/
theorem getLast?_eq_of_max : ∀ {l : List Nat}, l.Sorted (· < ·) → ∀ {k : Nat},
    k ∈ l → (∀ x ∈ l, x ≤ k) → l.getLast? = some k := by
  intro l
  induction l with
  | nil => intro _ k hk _; cases hk
  | cons a t ih =>
    intro hs k hk hmax
    cases t with
    | nil =>
      rcases List.mem_cons.mp hk with h | h
      · simp [h]
      · cases h
    | cons b u =>
      rw [List.getLast?_cons_cons]
      have hcons := List.sorted_cons.mp hs
      rcases List.mem_cons.mp hk with h | h
      · exfalso
        have hab : a < b := hcons.1 b (by simp)
        have hbk : b ≤ k := hmax b (by simp)
        omega
      · exact ih hcons.2 h (fun x hx => hmax x (List.mem_cons_of_mem a hx))

theorem getLastOfMap {α β : Type} (f : α → β) :
    ∀ l : List α, (l.map f).getLast? = l.getLast?.map f := by
  intro l
  induction l with
  | nil => rfl
  | cons a t ih =>
    cases t with
    | nil => rfl
    | cons b u =>
      rw [List.map_cons, List.map_cons, List.getLast?_cons_cons,
        List.getLast?_cons_cons, ← List.map_cons]
      exact ih

/-- The first matched entry is the transcript entry at the least spanned
index. -/
theorem chunkFirstEntry_spec {α : Type} (tr : List α) (s : List Char) {k : Nat}
    (hk : k ∈ spannedIndices s) (hmin : ∀ x ∈ spannedIndices s, k ≤ x) :
    chunkFirstEntry tr s = tr.get? k := by
  have hh : (spannedIndices s).head? = some k :=
    head?_eq_of_min (spannedIndices_sorted s) hk hmin
  unfold chunkFirstEntry matchedEntries
  cases hsp : spannedIndices s with
  | nil => rw [hsp] at hh; cases hh
  | cons a t =>
    rw [hsp] at hh
    simp only [List.head?_cons, Option.some.injEq] at hh
    subst hh
    simp

/-- The last matched entry is the transcript entry at the greatest spanned
index. -/
theorem chunkLastEntry_spec {α : Type} (tr : List α) (s : List Char) {k : Nat}
    (hk : k ∈ spannedIndices s) (hmax : ∀ x ∈ spannedIndices s, x ≤ k) :
    chunkLastEntry tr s = tr.get? k := by
  have hh : (spannedIndices s).getLast? = some k :=
    getLast?_eq_of_max (spannedIndices_sorted_lt s) hk hmax
  unfold chunkLastEntry matchedEntries
  rw [getLastOfMap, hh]
  simp

/-- When every spanned index is in range, no matched entry is `undefined`. -/
theorem matchedEntries_all_isSome {α : Type} (tr : List α) (s : List Char)
    (h : ∀ k ∈ spannedIndices s, k < tr.length) :
    (matchedEntries tr s).all Option.isSome = true := by
  rw [List.all_eq_true]
  intro o ho
  rcases List.mem_map.mp ho with ⟨k, hk, rfl⟩
  rw [List.get?_eq_get (h k hk)]
  rfl

theorem enrichChunk_eq_ok (md : TranscriptMetadataW) (tr : List TranscriptEntry)
    (i : Nat) (s : String)
    (hall : (matchedEntries tr s.data).all Option.isSome = true) :
    enrichChunk md tr i s = Except.ok (mkChunkRecord md tr i s) := by
  unfold enrichChunk
  rw [hall]
  rfl

theorem chunkSingleTranscriptEnrich_eq_ok (md : TranscriptMetadataS) (tr : List SEntry)
    (i : Nat) (s : String)
    (hall : (matchedEntries tr s.data).all Option.isSome = true) :
    chunkSingleTranscriptEnrich md tr i s = Except.ok (mkChunkRecordS md tr i s) := by
  unfold chunkSingleTranscriptEnrich
  rw [hall]
  rfl

/-- A fetched-and-parsed transcript document of the multi-transcript
workflow. -/
structure TranscriptData where
  metadata : TranscriptMetadataW
  transcript : List TranscriptEntry
deriving DecidableEq

/-- The marker-tagging preprocessing shared by the chunking steps: drop
entries whose trimmed text is empty, prefix each remaining entry with its
`[[index]]` marker, and join with newlines. -/
def buildMarkedText (transcript : List TranscriptEntry) : String :=
  String.intercalate "\n" (transcript.enum.filterMap (fun p =>
    if trimChars p.2.text.data = [] then none
    else some ("[[" ++ toString p.1 ++ "]] " ++ String.mk (trimChars p.2.text.data))))

/-- `chunks.map((chunk, index) => ...)` over the enrichment map, with the
first thrown TypeError propagating (the whole loop body sits in one `try`). -/
def enrichChunks (md : TranscriptMetadataW) (tr : List TranscriptEntry) :
    List (Nat × String) → Except String (List ChunkWithMetadata)
  | [] => Except.ok []
  | (i, t) :: rest =>
    match enrichChunk md tr i t with
    | Except.error e => Except.error e
    | Except.ok c =>
      match enrichChunks md tr rest with
      | Except.error e => Except.error e
      | Except.ok cs => Except.ok (c :: cs)

/-- The body of the per-URL `try` block in `processMultipleTranscriptsStep`:
fetch, parse, tag, split, enrich.  The network fetch plus `JSON.parse` is the
`world` oracle (`none` = FetchError / ParseError); the external sentence
splitter (`doc.chunk` with maxSize 600, overlap 60) is the `split` oracle.
`none` overall means the `catch` branch ran: the URL is dropped. -/
def processUrl (world : String → Option TranscriptData) (split : String → List String)
    (url : String) : Option (List ChunkWithMetadata) :=
  match world url with
  | none => none
  | some td =>
    match enrichChunks td.metadata td.transcript
        ((split (buildMarkedText td.transcript)).enum) with
    | Except.ok cs => some cs
    | Except.error _ => none

/-- One iteration of the URL loop: on success append the chunks and record the
URL, on failure leave the accumulator unchanged and continue. -/
def processUrlStep (world : String → Option TranscriptData) (split : String → List String)
    (acc : List ChunkWithMetadata × List String) (url : String) :
    List ChunkWithMetadata × List String :=
  match processUrl world split url with
  | some cs => (acc.1 ++ cs, acc.2 ++ [url])
  | none => acc

/-- `processMultipleTranscriptsStep`: fold the per-URL processing over the
input URLs, accumulating `allChunks` and `processedUrls`.  By construction it
is total: a failing URL never aborts the batch. -/
def processMultipleTranscriptsStep (world : String → Option TranscriptData)
    (split : String → List String) (urls : List String) :
    List ChunkWithMetadata × List String :=
  urls.foldl (processUrlStep world split) ([], [])

/-- Holds when a URL, if it fetches and parses, also chunk-enriches without a
thrown TypeError (always the case for splitter outputs whose markers all come
from the tagged text). -/
def urlProcessOk (world : String → Option TranscriptData) (split : String → List String)
    (u : String) : Bool :=
  match world u with
  | none => true
  | some _ => (processUrl world split u).isSome

/-- Trace of the calls the embed steps issue against the embedding model and
the vector store. -/
inductive VectorStoreEffect where
  | embedCall (texts : List String)
  | deleteIndex (indexName : String)
  | createIndex (indexName : String) (dimension : Nat)
  | upsert (indexName : String) (count : Nat)
deriving DecidableEq

structure MultiIngestResult where
  success : Bool
  totalChunks : Nat
  processedUrls : List String
deriving DecidableEq

/-- `embedMultipleTranscriptChunks`: with zero chunks, return success
immediately and issue no call at all; otherwise embed all chunk texts in one
batched call, attempt `createIndex` (an already-exists error is swallowed),
and upsert all vectors with their metadata. -/
def embedMultipleTranscriptChunks (allChunks : List ChunkWithMetadata)
    (processedUrls : List String) : MultiIngestResult × List VectorStoreEffect :=
  if allChunks.length = 0 then
    ({ success := true, totalChunks := 0, processedUrls := processedUrls }, [])
  else
    ({ success := true, totalChunks := allChunks.length, processedUrls := processedUrls },
     [VectorStoreEffect.embedCall (allChunks.map ChunkWithMetadata.text),
      VectorStoreEffect.createIndex "transcripts" 1536,
      VectorStoreEffect.upsert "transcripts" allChunks.length])

structure SingleIngestResult where
  success : Bool
deriving DecidableEq

/-- `embedSingleTranscriptChunks` (legacy single-transcript workflow): embed,
then DELETE the existing index, recreate it, and upsert. -/
def embedSingleTranscriptChunks (chunks : List ChunkWithMetadata) :
    SingleIngestResult × List VectorStoreEffect :=
  ({ success := true },
   [VectorStoreEffect.embedCall (chunks.map ChunkWithMetadata.text),
    VectorStoreEffect.deleteIndex "transcripts",
    VectorStoreEffect.createIndex "transcripts" 1536,
    VectorStoreEffect.upsert "transcripts" chunks.length])

/-- One raw result returned by the vector store: its metadata fields may each
be absent (`result.metadata?.field` in the tools), plus a similarity score. -/
structure RawResult where
  text : Option String
  timestamp_start : Option String
  timestamp_end : Option String
  speakers_in_chunk : Option (List String)
  episode_title : Option String
  total_speakers : Option (List String)
  source : Option String
  score : Int
deriving DecidableEq

/-- JavaScript `x || d` for an optional string: both `undefined` and the empty
string are falsy. -/
def jsOrStr (o : Option String) (d : String) : String :=
  match o with
  | some s => if s = "" then d else s
  | none => d

structure FormattedSource where
  text : String
  timestamp_start : String
  timestamp_end : String
  speakers_in_chunk : List String
  episode_title : String
  score : Int
deriving DecidableEq

/-- The per-result formatting of `transcriptSearchTool`. -/
def formatResult (r : RawResult) : FormattedSource :=
  { text := jsOrStr r.text ""
    timestamp_start := jsOrStr r.timestamp_start ""
    timestamp_end := jsOrStr r.timestamp_end ""
    speakers_in_chunk := r.speakers_in_chunk.getD []
    episode_title := jsOrStr r.episode_title ""
    score := r.score }

structure TranscriptSearchOutput where
  query : String
  relevantContext : String
  sources : List FormattedSource
deriving DecidableEq

/-- `transcriptSearchTool`: embed the query, run a top-15 similarity search,
format.  Neither call is wrapped in a `try`, so an embedding or store error
propagates to the caller unchanged. -/
def transcriptSearchTool (embed : String → Except String (List Int))
    (storeQuery : List Int → Nat → Except String (List RawResult))
    (query : String) : Except String TranscriptSearchOutput :=
  match embed query with
  | Except.error e => Except.error e
  | Except.ok v =>
    match storeQuery v 15 with
    | Except.error e => Except.error e
    | Except.ok results =>
      Except.ok
        { query := query
          relevantContext :=
            String.intercalate "\n\n" ((results.map formatResult).map FormattedSource.text)
          sources := results.map formatResult }

/-- `result.metadata?.episode_title || 'Unknown'`. -/
def titleOf (r : RawResult) : String := jsOrStr r.episode_title "Unknown"

/-- `result.metadata?.total_speakers || []` (an empty array is truthy). -/
def speakersOfR (r : RawResult) : List String := r.total_speakers.getD []

/-- `result.metadata?.source || ''`. -/
def sourceOfR (r : RawResult) : String := jsOrStr r.source ""

structure EpisodeSummary where
  title : String
  speakers : List String
  source : String
  chunks_count : Nat
deriving DecidableEq

/-- The `results.forEach` body of `episodeInfoTool`: insert a fresh summary
record on first sight of a title, then increment that title's counter.  The
`Map` keyed by title is modelled as an insertion-ordered list with unique
titles; incrementing the keyed entry is the title-guarded map below. -/
def addEpisode (acc : List EpisodeSummary) (r : RawResult) : List EpisodeSummary :=
  (if acc.any (fun ep => ep.title == titleOf r) then acc
   else acc ++ [{ title := titleOf r, speakers := speakersOfR r, source := sourceOfR r,
                  chunks_count := 0 }]).map
    (fun ep =>
      if ep.title == titleOf r then { ep with chunks_count := ep.chunks_count + 1 } else ep)

structure EpisodeInfoOutput where
  episodes : List EpisodeSummary
  total_episodes : Nat
deriving DecidableEq

/-- `episodeInfoTool`: a broad top-100 similarity search (the query-vector
embedding of the fixed string is folded into the store oracle), filtered by
episode title exactly when one is given, then grouped client-side by title.
A store error propagates. -/
def episodeInfoTool (store : Nat → Option String → Except String (List RawResult))
    (episodeTitle : Option String) : Except String EpisodeInfoOutput :=
  match store 100 episodeTitle with
  | Except.error e => Except.error e
  | Except.ok results =>
    Except.ok { episodes := results.foldl addEpisode []
                total_episodes := (results.foldl addEpisode []).length }

/-- The distinct episode titles among a result list, in order of first
appearance. -/
def episodeTitlesOf (results : List RawResult) : List String :=
  firstDedup (results.map titleOf)

/-- Modelled from the spec: one summary record per distinct episode title,
carrying the roster and source of the first result bearing that title and a
count of the results bearing it. -/
def aggSpecRecord (results : List RawResult) (t : String) : EpisodeSummary :=
  { title := t
    speakers := (results.find? (fun r => titleOf r == t)).elim [] speakersOfR
    source := (results.find? (fun r => titleOf r == t)).elim "" sourceOfR
    chunks_count := results.countP (fun r => titleOf r == t) }

/-- Modelled from the spec: the whole client-side grouping, one record per
distinct title in first-appearance order. -/
def aggSpec (results : List RawResult) : List EpisodeSummary :=
  (episodeTitlesOf results).map (aggSpecRecord results)

/-- One row of the relational `transcripts` table as selected by
`searchEpisodesByTitle`. -/
structure EpisodeRow where
  id : Nat
  episode_title : String
  speakers : List String
  source : String
  relevanceScore : Int
deriving DecidableEq

structure TitleSearchOutput where
  results : Option (List EpisodeRow)
  query : String
  count : Nat
  message : String
deriving DecidableEq

/-- `searchEpisodesByTitle`: the ranked full-text query (construction of the
tsquery string folded into the oracle) inside a `try` whose `catch` substitutes
a fallback object with `results: null` instead of rethrowing. -/
def searchEpisodesByTitle (dbQuery : Except String (List EpisodeRow))
    (query : String) : TitleSearchOutput :=
  match dbQuery with
  | Except.ok rows =>
    { results := some rows, query := query, count := rows.length,
      message := "Found " ++ toString rows.length ++ " episodes matching \"" ++ query ++ "\"" }
  | Except.error _ =>
    { results := none, query := query, count := 0,
      message := "Unknown error executing query: \"" ++ query ++ "\"" }

structure SpeakerCount where
  name : String
  appearances : Nat
deriving DecidableEq

structure EpisodeStatsOutput where
  totalEpisodes : Nat
  topSpeakers : Option (List SpeakerCount)
  message : String
deriving DecidableEq

/-- `getEpisodeStats`: both aggregate queries inside one `try` whose `catch`
substitutes zeroed fallback statistics instead of rethrowing. -/
def getEpisodeStats (countQuery : Except String Nat)
    (speakersQuery : Except String (List SpeakerCount)) : EpisodeStatsOutput :=
  match countQuery with
  | Except.error _ =>
    { totalEpisodes := 0, topSpeakers := none,
      message := "Error querying episode statistics" }
  | Except.ok c =>
    match speakersQuery with
    | Except.error _ =>
      { totalEpisodes := 0, topSpeakers := none,
        message := "Error querying episode statistics" }
    | Except.ok s =>
      { totalEpisodes := c, topSpeakers := some s,
        message := "Database contains " ++ toString c ++ " episodes" }

theorem stringAppendAssoc (a b c : String) : a ++ b ++ c = a ++ (b ++ c) := by
  apply String.ext
  simp [String.data_append, List.append_assoc]

/-- Concrete fixtures used by witnesses and counterexamples. -/
def mdEx : TranscriptMetadataW :=
  { episode_title := "Demo Episode", total_speakers := ["A", "B"],
    source := "https://example.com/demo.json" }

def eEx : TranscriptEntry := { timestamp := "00:00", speaker := "A", text := "Hello there." }

def mdSEx : TranscriptMetadataS :=
  { episode_title := "Demo Episode", speakers := ["A"], summary := none, source := "src" }

def sEx : SEntry := { timestamp := some "00:00", speaker := some "A", text := "Hello there." }

/-- C2: the spec requires an out-of-range spanned index to be skipped without
an error, but both enrichment variants evaluate `matchedEntries.map((e) =>
e.speaker)` on the `undefined` entry and throw a TypeError instead of
returning a chunk record: at the concrete failing input (a one-utterance
transcript and a chunk text carrying marker `[[5]]`) the enrichment errors. -/
theorem c2_out_of_range_marker_throws :
    enrichChunk mdEx [eEx] 0 "[[5]] hi" = Except.error undefinedSpeakerError ∧
    chunkSingleTranscriptEnrich mdSEx [sEx] 0 "[[5]] hi" = Except.error undefinedSpeakerError :=
  ⟨rfl, rfl⟩

/-- C6: with zero chunks from the whole batch, `embedMultipleTranscriptChunks`
issues no embedding call and no vector-store create/upsert call (its effect
trace is empty) and returns success with a zero count and the processed URL
list unchanged. -/
theorem c6_zero_chunks_skip : ∀ urls : List String,
    embedMultipleTranscriptChunks [] urls =
      ({ success := true, totalChunks := 0, processedUrls := urls }, []) :=
  fun _ => rfl

/-- C7 counterexample: the claim says no ingestion workflow deletes vector
entries or the collection before inserting, but the legacy single-transcript
workflow's embed step deletes the whole `transcripts` index before recreating
it and upserting — its trace on a concrete (empty) chunk list contains
`deleteIndex`, issued before the upsert. -/
theorem c7_counterexample_single_workflow_deletes :
    (embedSingleTranscriptChunks []).2 =
      [VectorStoreEffect.embedCall [], VectorStoreEffect.deleteIndex "transcripts",
       VectorStoreEffect.createIndex "transcripts" 1536,
       VectorStoreEffect.upsert "transcripts" 0] ∧
    VectorStoreEffect.deleteIndex "transcripts" ∈ (embedSingleTranscriptChunks []).2 :=
  ⟨rfl, by decide⟩

/-- C7 amended: the multi-transcript ingestion workflow is purely additive —
its embed step never issues a delete against the vector store, so re-ingesting
the same transcript adds duplicate chunk vectors; the legacy single-transcript
workflow, by contrast, deletes the index first (see the counterexample). -/
theorem c7_multi_workflow_additive :
    ∀ (chunks : List ChunkWithMetadata) (urls : List String) (n : String),
      VectorStoreEffect.deleteIndex n ∉ (embedMultipleTranscriptChunks chunks urls).2 := by
  intro chunks urls n
  unfold embedMultipleTranscriptChunks
  split
  · simp
  · simp

/-- C8 counterexample: the claim says no query-layer operation catches a store
error and substitutes a fallback result, but `searchEpisodesByTitle` catches
every error and returns a fallback object with `results: null` and a zero
count instead of propagating. -/
theorem c8_counterexample_title_search_catches :
    searchEpisodesByTitle (Except.error "store unreachable") "rag" =
      { results := none, query := "rag", count := 0,
        message := "Unknown error executing query: \"rag\"" } :=
  rfl

/-- C8 amended: the vector-store query tools (`transcriptSearchTool`,
`episodeInfoTool`) propagate embedding/store errors to the caller uncaught,
but the relational episode tools (`searchEpisodesByTitle`, `getEpisodeStats`)
catch all errors and substitute fallback result objects. -/
theorem c8_error_propagation :
    (∀ (e q : String) (store : List Int → Nat → Except String (List RawResult)),
      transcriptSearchTool (fun _ => Except.error e) store q = Except.error e) ∧
    (∀ (e q : String) (v : List Int),
      transcriptSearchTool (fun _ => Except.ok v) (fun _ _ => Except.error e) q =
        Except.error e) ∧
    (∀ (e : String) (t : Option String),
      episodeInfoTool (fun _ _ => Except.error e) t = Except.error e) ∧
    (∀ e q : String,
      searchEpisodesByTitle (Except.error e) q =
        { results := none, query := q, count := 0,
          message := "Unknown error executing query: \"" ++ q ++ "\"" }) ∧
    (∀ (e : String) (sq : Except String (List SpeakerCount)),
      getEpisodeStats (Except.error e) sq =
        { totalEpisodes := 0, topSpeakers := none,
          message := "Error querying episode statistics" }) :=
  ⟨fun _ _ _ => rfl, fun _ _ _ => rfl, fun _ _ => rfl, fun _ _ => rfl, fun _ _ => rfl⟩

def e2Ex : TranscriptEntry := { timestamp := "00:05", speaker := "B", text := "Hi." }

def s2Ex : SEntry := { timestamp := some "00:05", speaker := some "B", text := "Hi." }

def eEmptySpeaker : TranscriptEntry := { timestamp := "00:00", speaker := "", text := "hi" }

def csEx : String := "[[0]] Hello there. [[1]] Hi."

/-- C1: for every emitted chunk whose `spanned_indices` is non-empty (witnessed
by a least member `kmin` and a greatest member `kmax`, all indices in range),
`timestamp_start` is the timestamp of the utterance at the minimum spanned
index and `timestamp_end` that at the maximum spanned index — position order,
not clock order.  Both the workflow enrichment and the
`chunkSingleTranscript` helper satisfy this. -/
theorem c1_chunk_timestamps
    (md : TranscriptMetadataW) (tr : List TranscriptEntry)
    (mdS : TranscriptMetadataS) (trS : List SEntry) (i : Nat) (s : String)
    (kmin kmax : Nat) (emin emax : TranscriptEntry) (eminS emaxS : SEntry)
    (tminS tmaxS : String)
    (hr : ∀ k ∈ spannedIndices s.data, k < tr.length)
    (hrS : ∀ k ∈ spannedIndices s.data, k < trS.length)
    (hminmem : kmin ∈ spannedIndices s.data)
    (hmin : ∀ k ∈ spannedIndices s.data, kmin ≤ k)
    (hmaxmem : kmax ∈ spannedIndices s.data)
    (hmax : ∀ k ∈ spannedIndices s.data, k ≤ kmax)
    (hemin : tr.get? kmin = some emin) (hemax : tr.get? kmax = some emax)
    (heminS : trS.get? kmin = some eminS) (hemaxS : trS.get? kmax = some emaxS)
    (htminS : eminS.timestamp = some tminS) (htmaxS : emaxS.timestamp = some tmaxS) :
    (enrichChunk md tr i s = Except.ok (mkChunkRecord md tr i s) ∧
     (mkChunkRecord md tr i s).metadata.timestamp_start = emin.timestamp ∧
     (mkChunkRecord md tr i s).metadata.timestamp_end = emax.timestamp) ∧
    (chunkSingleTranscriptEnrich mdS trS i s = Except.ok (mkChunkRecordS mdS trS i s) ∧
     (mkChunkRecordS mdS trS i s).metadata.timestamp_start = tminS ∧
     (mkChunkRecordS mdS trS i s).metadata.timestamp_end = tmaxS) := by
  constructor
  · refine ⟨enrichChunk_eq_ok md tr i s (matchedEntries_all_isSome tr s.data hr), ?_, ?_⟩
    · show tsOrEmpty (chunkFirstEntry tr s.data) = emin.timestamp
      rw [chunkFirstEntry_spec tr s.data hminmem hmin, hemin]
      rfl
    · show tsOrEmpty (chunkLastEntry tr s.data) = emax.timestamp
      rw [chunkLastEntry_spec tr s.data hmaxmem hmax, hemax]
      rfl
  · refine ⟨chunkSingleTranscriptEnrich_eq_ok mdS trS i s
      (matchedEntries_all_isSome trS s.data hrS), ?_, ?_⟩
    · show tsSOrEmpty (chunkFirstEntry trS s.data) = tminS
      rw [chunkFirstEntry_spec trS s.data hminmem hmin, heminS]
      simp [tsSOrEmpty, htminS]
    · show tsSOrEmpty (chunkLastEntry trS s.data) = tmaxS
      rw [chunkLastEntry_spec trS s.data hmaxmem hmax, hemaxS]
      simp [tsSOrEmpty, htmaxS]

theorem c1_witness :
    (mkChunkRecord mdEx [eEx, e2Ex] 0 csEx).metadata.timestamp_start = "00:00" ∧
    (mkChunkRecord mdEx [eEx, e2Ex] 0 csEx).metadata.timestamp_end = "00:05" ∧
    (mkChunkRecordS mdSEx [sEx, s2Ex] 0 csEx).metadata.timestamp_start = "00:00" ∧
    (mkChunkRecordS mdSEx [sEx, s2Ex] 0 csEx).metadata.timestamp_end = "00:05" := by
  have h := c1_chunk_timestamps mdEx [eEx, e2Ex] mdSEx [sEx, s2Ex] 0 csEx 0 1
    eEx e2Ex sEx s2Ex "00:00" "00:05"
    (by decide) (by decide) (by decide) (by decide) (by decide) (by decide)
    (by decide) (by decide) (by decide) (by decide) (by decide) (by decide)
  exact ⟨h.1.2.1, h.1.2.2, h.2.2.1, h.2.2.2⟩

/-- C3 counterexample: the claim says `speakers_in_chunk` contains no empty
strings, but the workflow enrichment does not filter empty speakers: for an
utterance whose `speaker` is the empty string, the emitted chunk's
`speakers_in_chunk` is `[""]`. -/
theorem c3_counterexample_empty_speaker :
    enrichChunk mdEx [eEmptySpeaker] 0 "[[0]] hi" =
      Except.ok (mkChunkRecord mdEx [eEmptySpeaker] 0 "[[0]] hi") ∧
    (mkChunkRecord mdEx [eEmptySpeaker] 0 "[[0]] hi").metadata.speakers_in_chunk = [""] :=
  ⟨rfl, by decide⟩

/-- C3 amended: in the workflow steps, `speakers_in_chunk` is the
first-appearance deduplication of the speaker values of the spanned utterances
and contains no duplicates, but it may contain empty strings (no non-empty
filter); the `chunkSingleTranscript` helper additionally filters out empty and
absent speakers, so its chunks carry no duplicates and no empty strings. -/
theorem c3_speakers_dedup :
    (∀ (md : TranscriptMetadataW) (tr : List TranscriptEntry) (i : Nat) (s : String)
       (r : ChunkWithMetadata), enrichChunk md tr i s = Except.ok r →
         r.metadata.speakers_in_chunk =
           firstDedup (((matchedEntries tr s.data).filterMap id).map TranscriptEntry.speaker) ∧
         r.metadata.speakers_in_chunk.Nodup) ∧
    (∀ (md : TranscriptMetadataS) (tr : List SEntry) (i : Nat) (s : String)
       (r : ChunkWithMetadataS), chunkSingleTranscriptEnrich md tr i s = Except.ok r →
         r.metadata.speakers_in_chunk.Nodup ∧ "" ∉ r.metadata.speakers_in_chunk) := by
  constructor
  · intro md tr i s r h
    unfold enrichChunk at h
    split at h
    · injection h with h
      subst h
      exact ⟨rfl, nodup_firstDedup _⟩
    · cases h
  · intro md tr i s r h
    unfold chunkSingleTranscriptEnrich at h
    split at h
    · injection h with h
      subst h
      refine ⟨nodup_firstDedup _, ?_⟩
      intro hmem
      show False
      rw [show (mkChunkRecordS md tr i s).metadata.speakers_in_chunk =
          firstDedup (((matchedEntries tr s.data).filterMap id).filterMap sSpeakerKeep)
          from rfl, mem_firstDedup] at hmem
      rcases List.mem_filterMap.mp hmem with ⟨e, _, hk⟩
      rcases hsp : e.speaker with _ | sp
      · simp [sSpeakerKeep, hsp] at hk
      · simp only [sSpeakerKeep, hsp] at hk
        by_cases htrim : trimChars sp.data = []
        · rw [if_pos htrim] at hk
          cases hk
        · rw [if_neg htrim] at hk
          injection hk with hk
          subst hk
          exact htrim rfl
    · cases h

theorem c3_witness :
    enrichChunk mdEx [eEx] 0 "[[0]] hi" = Except.ok (mkChunkRecord mdEx [eEx] 0 "[[0]] hi") ∧
    (mkChunkRecord mdEx [eEx] 0 "[[0]] hi").metadata.speakers_in_chunk.Nodup := by
  have h : enrichChunk mdEx [eEx] 0 "[[0]] hi" =
      Except.ok (mkChunkRecord mdEx [eEx] 0 "[[0]] hi") := rfl
  exact ⟨h, (c3_speakers_dedup.1 mdEx [eEx] 0 "[[0]] hi" _ h).2⟩

/-- C4 counterexample: the claim says every emitted chunk's `spanned_indices`
is non-empty, but a chunk text containing no positional markers is emitted
with empty `spanned_indices` (and `entries_count` 0). -/
theorem c4_counterexample_zero_marker_chunk :
    spannedIndices "hello world".data = [] ∧
    enrichChunk mdEx [eEx] 0 "hello world" =
      Except.ok (mkChunkRecord mdEx [eEx] 0 "hello world") ∧
    (mkChunkRecord mdEx [eEx] 0 "hello world").metadata.entries_count = 0 :=
  ⟨by decide, rfl, by decide⟩

/-- C4 amended: every emitted chunk's `spanned_indices` is strictly increasing
(hence duplicate-free), but it may be empty when the chunk text contains no
positional markers. -/
theorem c4_spanned_strictly_increasing : ∀ s : List Char,
    (spannedIndices s).Sorted (· < ·) ∧ (spannedIndices s).Nodup :=
  fun s => ⟨spannedIndices_sorted_lt s, spannedIndices_nodup s⟩

/-- C10: for a chunk text with zero positional markers, the workflow
enrichment emits a record with empty timestamps, empty `speakers_in_chunk`
and `entries_count` 0, but its `chunk_id` interpolates the missing first/last
entries as the literal substring "undefined"; the `chunkSingleTranscript`
helper substitutes empty strings there instead. -/
theorem c10_zero_marker_chunk (md : TranscriptMetadataW) (tr : List TranscriptEntry)
    (mdS : TranscriptMetadataS) (trS : List SEntry) (i : Nat) (s : String)
    (h : extractMarkers s.data = []) :
    (enrichChunk md tr i s = Except.ok (mkChunkRecord md tr i s) ∧
     (mkChunkRecord md tr i s).metadata.timestamp_start = "" ∧
     (mkChunkRecord md tr i s).metadata.timestamp_end = "" ∧
     (mkChunkRecord md tr i s).metadata.speakers_in_chunk = [] ∧
     (mkChunkRecord md tr i s).metadata.entries_count = 0 ∧
     (mkChunkRecord md tr i s).metadata.chunk_id =
       md.episode_title ++ "_chunk_" ++ toString i ++ "_" ++ "undefined" ++ "_" ++ "undefined" ∧
     (∃ a b : String, (mkChunkRecord md tr i s).metadata.chunk_id = a ++ "undefined" ++ b)) ∧
    (chunkSingleTranscriptEnrich mdS trS i s = Except.ok (mkChunkRecordS mdS trS i s) ∧
     (mkChunkRecordS mdS trS i s).metadata.chunk_id =
       mdS.episode_title ++ "_chunk_" ++ toString i ++ "_" ++ "" ++ "_" ++ "") := by
  have hsp : spannedIndices s.data = [] := by
    unfold spannedIndices
    rw [h]
    rfl
  have hm : matchedEntries tr s.data = ([] : List (Option TranscriptEntry)) := by
    unfold matchedEntries
    rw [hsp]
    rfl
  have hmS : matchedEntries trS s.data = ([] : List (Option SEntry)) := by
    unfold matchedEntries
    rw [hsp]
    rfl
  have hfe : chunkFirstEntry tr s.data = none := by
    unfold chunkFirstEntry
    rw [hm]
    rfl
  have hle : chunkLastEntry tr s.data = none := by
    unfold chunkLastEntry
    rw [hm]
    rfl
  have hfeS : chunkFirstEntry trS s.data = none := by
    unfold chunkFirstEntry
    rw [hmS]
    rfl
  have hleS : chunkLastEntry trS s.data = none := by
    unfold chunkLastEntry
    rw [hmS]
    rfl
  refine ⟨⟨?_, ?_, ?_, ?_, ?_, ?_, ?_⟩, ?_, ?_⟩
  · exact enrichChunk_eq_ok md tr i s (by rw [hm]; rfl)
  · show tsOrEmpty (chunkFirstEntry tr s.data) = ""
    rw [hfe]
    rfl
  · show tsOrEmpty (chunkLastEntry tr s.data) = ""
    rw [hle]
    rfl
  · show firstDedup (((matchedEntries tr s.data).filterMap id).map TranscriptEntry.speaker) = []
    rw [hm]
    rfl
  · show (matchedEntries tr s.data).length = 0
    rw [hm]
    rfl
  · show md.episode_title ++ "_chunk_" ++ toString i ++ "_" ++
        tsOrUndefined (chunkFirstEntry tr s.data) ++ "_" ++
        tsOrUndefined (chunkLastEntry tr s.data) = _
    rw [hfe, hle]
    rfl
  · refine ⟨md.episode_title ++ "_chunk_" ++ toString i ++ "_", "_" ++ "undefined", ?_⟩
    show md.episode_title ++ "_chunk_" ++ toString i ++ "_" ++
        tsOrUndefined (chunkFirstEntry tr s.data) ++ "_" ++
        tsOrUndefined (chunkLastEntry tr s.data) = _
    rw [hfe, hle]
    show md.episode_title ++ "_chunk_" ++ toString i ++ "_" ++ "undefined" ++ "_" ++
        "undefined" = _
    rw [stringAppendAssoc (md.episode_title ++ "_chunk_" ++ toString i ++ "_" ++ "undefined")
      "_" "undefined"]
  · exact chunkSingleTranscriptEnrich_eq_ok mdS trS i s (by rw [hmS]; rfl)
  · show mdS.episode_title ++ "_chunk_" ++ toString i ++ "_" ++
        tsSOrEmpty (chunkFirstEntry trS s.data) ++ "_" ++
        tsSOrEmpty (chunkLastEntry trS s.data) = _
    rw [hfeS, hleS]
    rfl

theorem c10_witness :
    extractMarkers "hello".data = [] ∧
    enrichChunk mdEx [eEx] 1 "hello" = Except.ok (mkChunkRecord mdEx [eEx] 1 "hello") ∧
    (mkChunkRecord mdEx [eEx] 1 "hello").metadata.chunk_id =
      "Demo Episode_chunk_1_undefined_undefined" ∧
    (mkChunkRecordS mdSEx [sEx] 1 "hello").metadata.chunk_id = "Demo Episode_chunk_1__" := by
  have h := c10_zero_marker_chunk mdEx [eEx] mdSEx [sEx] 1 "hello" (by decide)
  exact ⟨by decide, h.1.1, by decide, by decide⟩

theorem embedMultiple_result (cs : List ChunkWithMetadata) (urls : List String) :
    (embedMultipleTranscriptChunks cs urls).1 =
      { success := true, totalChunks := cs.length, processedUrls := urls } := by
  unfold embedMultipleTranscriptChunks
  split
  · rename_i h0
    simp [h0]
  · rfl

theorem processMany_foldl (world : String → Option TranscriptData)
    (split : String → List String) :
    ∀ (urls : List String) (acc : List ChunkWithMetadata × List String),
      urls.foldl (processUrlStep world split) acc =
        (acc.1 ++ (urls.filterMap (processUrl world split)).flatten,
         acc.2 ++ urls.filter (fun u => (processUrl world split u).isSome)) := by
  intro urls
  induction urls with
  | nil => intro acc; simp
  | cons u rest ih =>
    intro acc
    rw [List.foldl_cons, ih]
    unfold processUrlStep
    cases h : processUrl world split u with
    | none => simp [List.filterMap_cons, List.filter_cons, h]
    | some cs => simp [List.filterMap_cons, List.filter_cons, h, List.append_assoc]

/-- C5: the batch ingestion step is a total function of its URL list (a
failing URL is dropped by the per-URL catch and processing continues, so the
step never raises because a fetch or parse failed); under the well-formedness
condition that every fetched transcript also enriches without a thrown
TypeError, `processedUrls` is exactly the successfully fetched-and-parsed
URLs in input order, `totalChunks` counts only the chunks of those successes,
and in particular three URLs with one failure yield two processed URLs. -/
theorem c5_partial_batch (world : String → Option TranscriptData)
    (split : String → List String) (urls : List String)
    (h : ∀ u ∈ urls, urlProcessOk world split u = true) :
    (processMultipleTranscriptsStep world split urls).2 =
      urls.filter (fun u => (world u).isSome) ∧
    (processMultipleTranscriptsStep world split urls).1 =
      (urls.filterMap (processUrl world split)).flatten ∧
    (embedMultipleTranscriptChunks (processMultipleTranscriptsStep world split urls).1
        (processMultipleTranscriptsStep world split urls).2).1 =
      { success := true,
        totalChunks := (urls.filterMap (processUrl world split)).flatten.length,
        processedUrls := urls.filter (fun u => (world u).isSome) } ∧
    (∀ u1 u2 u3 : String, urls = [u1, u2, u3] → (world u1).isSome = true →
      world u2 = none → (world u3).isSome = true →
      (processMultipleTranscriptsStep world split urls).2.length = 2) := by
  have hfold := processMany_foldl world split urls ([], [])
  have hfil : urls.filter (fun u => (processUrl world split u).isSome) =
      urls.filter (fun u => (world u).isSome) := by
    apply List.filter_congr
    intro u hu
    have hok := h u hu
    cases hw : world u with
    | none =>
      have hpu : processUrl world split u = none := by
        simp only [processUrl, hw]
      simp [hpu, hw]
    | some td =>
      simp only [urlProcessOk, hw] at hok
      simp [hok, hw]
  have h2 : (processMultipleTranscriptsStep world split urls).2 =
      urls.filter (fun u => (world u).isSome) := by
    unfold processMultipleTranscriptsStep
    rw [hfold]
    simpa using hfil
  have h1 : (processMultipleTranscriptsStep world split urls).1 =
      (urls.filterMap (processUrl world split)).flatten := by
    unfold processMultipleTranscriptsStep
    rw [hfold]
    simp
  refine ⟨h2, h1, ?_, ?_⟩
  · rw [embedMultiple_result, h1, h2]
  · intro u1 u2 u3 hurls hw1 hw2 hw3
    subst hurls
    rw [h2]
    simp [List.filter_cons, hw1, hw2, hw3]

def tdEx : TranscriptData := { metadata := mdEx, transcript := [eEx, e2Ex] }

/-- A concrete world where the middle URL fails to fetch. -/
def worldEx : String → Option TranscriptData :=
  fun u => if u = "b" then none else some tdEx

/-- A concrete splitter returning the whole marked text as one chunk. -/
def splitEx : String → List String := fun s => [s]

theorem c5_witness :
    (processMultipleTranscriptsStep worldEx splitEx ["a", "b", "c"]).2.length = 2 ∧
    (processMultipleTranscriptsStep worldEx splitEx ["a", "b", "c"]).2 = ["a", "c"] := by
  have h := c5_partial_batch worldEx splitEx ["a", "b", "c"] (by decide)
  refine ⟨h.2.2.2 "a" "b" "c" rfl (by decide) (by decide) (by decide), ?_⟩
  rw [h.1]
  decide

theorem mapCongrMem {α β : Type} (f g : α → β) :
    ∀ l : List α, (∀ a ∈ l, f a = g a) → l.map f = l.map g := by
  intro l
  induction l with
  | nil => intro _; rfl
  | cons a t ih =>
    intro h
    rw [List.map_cons, List.map_cons, h a (List.mem_cons_self a t),
      ih (fun x hx => h x (List.mem_cons_of_mem a hx))]

theorem find?_append_match {α : Type} (p : α → Bool) (l₁ l₂ : List α) :
    (l₁ ++ l₂).find? p =
      match l₁.find? p with
      | some x => some x
      | none => l₂.find? p := by
  induction l₁ with
  | nil => simp
  | cons a t ih =>
    by_cases h : p a = true
    · rw [List.cons_append, List.find?_cons_of_pos _ h, List.find?_cons_of_pos _ h]
    · rw [List.cons_append, List.find?_cons_of_neg _ h, List.find?_cons_of_neg _ h, ih]

theorem aggSpec_titles (results : List RawResult) :
    (aggSpec results).map EpisodeSummary.title = episodeTitlesOf results := by
  unfold aggSpec
  rw [List.map_map]
  have h : (EpisodeSummary.title ∘ aggSpecRecord results) = id := by
    funext t
    rfl
  rw [h, List.map_id]

theorem mem_episodeTitlesOf (results : List RawResult) (t : String) :
    t ∈ episodeTitlesOf results ↔ ∃ r ∈ results, titleOf r = t := by
  unfold episodeTitlesOf
  rw [mem_firstDedup]
  simp [List.mem_map]

theorem aggSpec_any_title (results : List RawResult) (t : String) :
    ((aggSpec results).any (fun ep => ep.title == t) = true) ↔
      t ∈ episodeTitlesOf results := by
  rw [List.any_eq_true]
  constructor
  · rintro ⟨ep, hep, hti⟩
    rw [beq_iff_eq] at hti
    subst hti
    rw [← aggSpec_titles]
    exact List.mem_map_of_mem _ hep
  · intro ht
    rw [← aggSpec_titles] at ht
    rcases List.mem_map.mp ht with ⟨ep, hep, rfl⟩
    exact ⟨ep, hep, by simp⟩

theorem bump_aggSpecRecord (rs : List RawResult) (r : RawResult) (t' : String)
    (ht' : t' ∈ episodeTitlesOf rs) :
    (if (aggSpecRecord rs t').title == titleOf r
     then { aggSpecRecord rs t' with
              chunks_count := (aggSpecRecord rs t').chunks_count + 1 }
     else aggSpecRecord rs t') = aggSpecRecord (rs ++ [r]) t' := by
  have hex : ∃ q ∈ rs, titleOf q = t' := (mem_episodeTitlesOf rs t').mp ht'
  have hfind : ∃ x, rs.find? (fun q => titleOf q == t') = some x := by
    rcases hex with ⟨q, hq, hqt⟩
    have hs : (rs.find? (fun q => titleOf q == t')).isSome = true :=
      List.find?_isSome.mpr ⟨q, hq, by simp [hqt]⟩
    exact Option.isSome_iff_exists.mp hs
  rcases hfind with ⟨x, hx⟩
  have hfind2 : (rs ++ [r]).find? (fun q => titleOf q == t') = some x := by
    rw [find?_append_match, hx]
  have hcount : (rs ++ [r]).countP (fun q => titleOf q == t') =
      rs.countP (fun q => titleOf q == t') + (if titleOf r == t' then 1 else 0) := by
    rw [List.countP_append]
    simp [List.countP_cons]
  by_cases heq : titleOf r = t'
  · simp [aggSpecRecord, hx, hfind2, hcount, heq]
  · have heq' : ¬(t' = titleOf r) := fun hh => heq hh.symm
    simp [aggSpecRecord, hx, hfind2, hcount, heq, heq']

/-- The `forEach` grouping of `episodeInfoTool` computes exactly the
per-distinct-title aggregation of the spec. -/
theorem foldl_addEpisode_eq_aggSpec : ∀ results : List RawResult,
    results.foldl addEpisode [] = aggSpec results := by
  intro results
  induction results using List.reverseRecOn with
  | nil => rfl
  | append_singleton rs r ih =>
    rw [List.foldl_append, List.foldl_cons, List.foldl_nil, ih]
    unfold addEpisode
    have htitles : episodeTitlesOf (rs ++ [r]) =
        if titleOf r ∈ List.map titleOf rs then episodeTitlesOf rs
        else episodeTitlesOf rs ++ [titleOf r] := by
      unfold episodeTitlesOf
      rw [List.map_append, List.map_singleton, firstDedup_concat]
    by_cases hmem : titleOf r ∈ episodeTitlesOf rs
    · have hmem' : titleOf r ∈ List.map titleOf rs := (mem_firstDedup _ _).mp hmem
      rw [if_pos ((aggSpec_any_title rs (titleOf r)).mpr hmem)]
      conv_rhs => rw [aggSpec]
      rw [htitles, if_pos hmem']
      conv_lhs => rw [aggSpec]
      rw [List.map_map]
      apply mapCongrMem
      intro t' ht'
      exact bump_aggSpecRecord rs r t' ht'
    · have hmem' : titleOf r ∉ List.map titleOf rs :=
        fun hc => hmem ((mem_firstDedup _ _).mpr hc)
      rw [if_neg (fun hc => hmem ((aggSpec_any_title rs (titleOf r)).mp hc))]
      rw [List.map_append]
      conv_rhs => rw [aggSpec]
      rw [htitles, if_neg hmem', List.map_append]
      congr 1
      · conv_lhs => rw [aggSpec]
        rw [List.map_map]
        apply mapCongrMem
        intro t' ht'
        exact bump_aggSpecRecord rs r t' ht'
      · have hnone : rs.find? (fun q => titleOf q == titleOf r) = none := by
          rw [List.find?_eq_none]
          intro q hq
          simp only [beq_iff_eq]
          intro hqt
          exact hmem ((mem_episodeTitlesOf rs (titleOf r)).mpr ⟨q, hq, hqt⟩)
        have hfind2 : (rs ++ [r]).find? (fun q => titleOf q == titleOf r) = some r := by
          rw [find?_append_match, hnone]
          simp
        have hzero : rs.countP (fun q => titleOf q == titleOf r) = 0 := by
          rw [List.countP_eq_zero]
          intro q hq
          simp only [beq_iff_eq]
          intro hqt
          exact hmem ((mem_episodeTitlesOf rs (titleOf r)).mpr ⟨q, hq, hqt⟩)
        have hcount : (rs ++ [r]).countP (fun q => titleOf q == titleOf r) = 1 := by
          rw [List.countP_append, hzero]
          simp [List.countP_cons]
        simp [aggSpecRecord, hfind2, hcount]

/-- C9: for every result list the store returns to the episode-aggregation
query — issued with topK 100 and the episode-title filter exactly when a
title is given — the tool outputs exactly one record per distinct
`episode_title` (in first-appearance order, no duplicates), each carrying the
declared roster and source of (the first result of) that episode, with
`chunks_count` the number of results bearing that title, and `total_episodes`
the number of distinct titles. -/
theorem c9_episode_aggregation
    (store : Nat → Option String → Except String (List RawResult))
    (title : Option String) (results : List RawResult)
    (h : store 100 title = Except.ok results) :
    episodeInfoTool store title =
      Except.ok { episodes := aggSpec results,
                  total_episodes := (episodeTitlesOf results).length } ∧
    (aggSpec results).map EpisodeSummary.title = episodeTitlesOf results ∧
    ((aggSpec results).map EpisodeSummary.title).Nodup ∧
    (∀ ep ∈ aggSpec results,
      ep.chunks_count = results.countP (fun q => titleOf q == ep.title) ∧
      (results.find? (fun q => titleOf q == ep.title)).elim [] speakersOfR = ep.speakers ∧
      (results.find? (fun q => titleOf q == ep.title)).elim "" sourceOfR = ep.source) := by
  refine ⟨?_, aggSpec_titles results, ?_, ?_⟩
  · unfold episodeInfoTool
    rw [h]
    show (Except.ok
        { episodes := List.foldl addEpisode [] results,
          total_episodes := (List.foldl addEpisode [] results).length } :
        Except String EpisodeInfoOutput) =
      Except.ok
        { episodes := aggSpec results,
          total_episodes := (episodeTitlesOf results).length }
    rw [foldl_addEpisode_eq_aggSpec]
    unfold aggSpec
    rw [List.length_map]
  · rw [aggSpec_titles]
    exact nodup_firstDedup _
  · intro ep hep
    unfold aggSpec at hep
    rcases List.mem_map.mp hep with ⟨t', _, rfl⟩
    exact ⟨rfl, rfl, rfl⟩

def rAEx : RawResult :=
  { text := none, timestamp_start := none, timestamp_end := none,
    speakers_in_chunk := none, episode_title := some "E1",
    total_speakers := some ["A"], source := some "s1", score := 0 }

def rBEx : RawResult :=
  { text := none, timestamp_start := none, timestamp_end := none,
    speakers_in_chunk := none, episode_title := some "E2",
    total_speakers := some ["B"], source := some "s2", score := 0 }

def rA2Ex : RawResult :=
  { text := none, timestamp_start := none, timestamp_end := none,
    speakers_in_chunk := none, episode_title := some "E1",
    total_speakers := some ["A", "X"], source := some "s1b", score := 0 }

def resultsEx : List RawResult := [rAEx, rBEx, rA2Ex]

def storeEx : Nat → Option String → Except String (List RawResult) :=
  fun _ _ => Except.ok resultsEx

theorem c9_witness :
    episodeInfoTool storeEx none =
      Except.ok
        { episodes :=
            [{ title := "E1", speakers := ["A"], source := "s1", chunks_count := 2 },
             { title := "E2", speakers := ["B"], source := "s2", chunks_count := 1 }],
          total_episodes := 2 } := by
  have h := (c9_episode_aggregation storeEx none resultsEx rfl).1
  rw [h]
  rfl
